import Mathlib

/-!
Verification of the SEO audit pipeline (`seo_audit_polars.py`,
`seo_insights_polars.py`, `api/index.py`) against its natural-language
specification.

The Python code is shallowly embedded: polars data frames become typed
lists of rows (or a `columns`/`rows` record where the schema is dynamic),
Python `None` becomes `Option`, raising functions become `Except`, and
float threshold comparisons on integer counts are written as the
equivalent exact integer inequalities.  Machine floats appear in the
source only through those threshold comparisons and through the external
`networkx.pagerank` call, which no claim below depends on.
-/

namespace SeoAudit

/-! ## Generic data-frame model

A polars `DataFrame` reduced to what the safe-execution wrapper and the
insight dispatcher inspect: its column names and its rows (`is_empty()`
is `rows.isEmpty`).  Cell contents are opaque strings with `none` for
polars nulls. -/

structure PolarsDF where
  columns : List String
  rows : List (List (Option String))
deriving Repr, DecidableEq

/-! ## `api/index.py`: overall score

`score = max(0, 100 - (issues_count * 15))` (lines 249-250 and 449). -/

def audit_score (issues : List String) : Int :=
  max 0 (100 - ((issues.length : Int) * 15))

/-! ## `seo_audit_polars.py`: `normalize_url` (lines 181-187)

```python
def normalize_url(u):
    if u is None:
        return u
    u = str(u).strip().lower()
    if u.endswith("/") and len(u) > len("http://a"):
        return u.rstrip("/")
    return u
```

`str.strip()` removes leading and trailing whitespace, `str.lower()`
lowercases (ASCII is modelled; the URLs of interest are ASCII),
`len(u)` counts characters, `u.endswith("/")` looks at the last
character, and `rstrip("/")` removes every trailing `'/'`.  These are
implemented over the character list so that they are fully executable.
The `None` passthrough is handled by the callers mapping over
`Option`. -/

def charIsSpace (c : Char) : Bool :=
  c == ' ' || c == '\t' || c == '\n' || c == '\r' || c == '\x0b' || c == '\x0c'

def pyStrip (s : String) : String :=
  String.mk (((s.data.dropWhile charIsSpace).reverse.dropWhile charIsSpace).reverse)

def charLower (c : Char) : Char :=
  if 'A' ≤ c && c ≤ 'Z' then Char.ofNat (c.toNat + 32) else c

def pyLower (s : String) : String :=
  String.mk (s.data.map charLower)

def endsWithSlash (s : String) : Bool :=
  s.data.getLast? == some '/'

def rstripSlashes (s : String) : String :=
  String.mk ((s.data.reverse.dropWhile (fun c => c == '/')).reverse)

def normalize_url (u : String) : String :=
  let v := pyLower (pyStrip u)
  if endsWithSlash v && decide (v.length > ("http://a" : String).length) then
    rstripSlashes v
  else
    v

/-! ## `seo_audit_polars.py`: `safe_run` (lines 469-486)

```python
def safe_run(func, log, name="", expected_cols=None, *args, **kwargs):
    try:
        df = func(*args, **kwargs)
        if df is None or (hasattr(df, "is_empty") and df.is_empty()):
            if expected_cols:
                return pl.DataFrame(schema={col: pl.Utf8 for col in expected_cols})
            return pl.DataFrame()
        return df
    except Exception as e:
        if expected_cols:
            return pl.DataFrame(schema={col: pl.Utf8 for col in expected_cols})
        return pl.DataFrame()
```

The wrapped call is embedded as its outcome: `Except.error` for a raised
exception, `Except.ok none` for a `None` result, `Except.ok (some df)`
otherwise.  Python's truthiness test `if expected_cols:` is false both
for `None` and for the empty list. -/

def safe_run (res : Except String (Option PolarsDF))
    (expected_cols : Option (List String)) : PolarsDF :=
  let fallback : PolarsDF :=
    match expected_cols with
    | some cols => if cols.isEmpty then ⟨[], []⟩ else ⟨cols, []⟩
    | none => ⟨[], []⟩
  match res with
  | Except.error _ => fallback
  | Except.ok none => fallback
  | Except.ok (some df) => if df.rows.isEmpty then fallback else df

/-- The wrapped call raised, returned `None`, or returned an empty frame. -/
def failedRun (res : Except String (Option PolarsDF)) : Bool :=
  match res with
  | Except.error _ => true
  | Except.ok none => true
  | Except.ok (some df) => df.rows.isEmpty

/-! ## `seo_audit_polars.py`: `report_canonicals` (lines 228-239)

```python
df = crawl_df.select(["url", "canonical"])
df = df.with_columns([
    pl.col("canonical").is_null().alias("canonical_missing"),
    (pl.col("canonical") == pl.col("url")).fill_null(False).alias("self_referencing")
])
```

A crawl record keeps only the fields this reporter reads; `url` is
non-null per the upstream invariant (records without a `url` are
dropped), `canonical` may be null.  In polars `canonical == url` is null
when `canonical` is null, and `fill_null(False)` turns that into
`false`; otherwise it is plain string equality on the raw values
(`normalize_url` is never applied here). -/

structure CanonicalRec where
  url : String
  canonical : Option String
deriving Repr, DecidableEq

structure CanonicalRow where
  url : String
  canonical : Option String
  canonical_missing : Bool
  self_referencing : Bool
deriving Repr, DecidableEq

def report_canonicals (crawl : List CanonicalRec) : List CanonicalRow :=
  crawl.map (fun r =>
    { url := r.url
      canonical := r.canonical
      canonical_missing := r.canonical.isNone
      self_referencing :=
        match r.canonical with
        | none => false
        | some c => c == r.url })

/-! ## `seo_audit_polars.py`: `report_sitemap_vs_crawl` (lines 254-307)

The crawl side is its (non-null) `url` column, the sitemap side its
`loc`/`lastmod`/`sitemap` columns; both URL sets are passed through
`normalize_url`.  Python's `set` union is modelled as `List.dedup` of
the concatenation (the claims proved below are order-independent), and
`sm_df.filter(...).row(0)` — the first sitemap row whose normalized
`loc` matches — as `List.find?`.  When the sitemap frame is `None` or
empty the source returns an empty frame carrying only the comparison
schema (lines 263-269), which for the typed row model is the empty row
list. -/

structure SitemapRec where
  loc : String
  lastmod : Option String
  sitemap : Option String
deriving Repr, DecidableEq

structure CompRow where
  url : String
  in_crawl : Bool
  in_sitemap : Bool
  orphaned : Bool
  uncatalogued : Bool
  lastmod : Option String
  sitemap : Option String
deriving Repr, DecidableEq

def report_sitemap_vs_crawl (sitemap_df : Option (List SitemapRec))
    (crawl_urls_raw : List String) : List CompRow :=
  let crawl_urls : List String := crawl_urls_raw.map normalize_url
  match sitemap_df with
  | none => []
  | some sm =>
    if sm.isEmpty then []
    else
      let smNorm : List (String × SitemapRec) :=
        sm.map (fun r => (normalize_url r.loc, r))
      let site_urls : List String := smNorm.map Prod.fst
      let all_urls : List String := (crawl_urls ++ site_urls).dedup
      all_urls.map (fun u =>
        let in_crawl := crawl_urls.contains u
        let in_sitemap := site_urls.contains u
        let firstMatch := smNorm.find? (fun p => p.fst == u)
        { url := u
          in_crawl := in_crawl
          in_sitemap := in_sitemap
          orphaned := in_sitemap && !in_crawl
          uncatalogued := in_crawl && !in_sitemap
          lastmod := firstMatch.bind (fun p => p.snd.lastmod)
          sitemap := firstMatch.bind (fun p => p.snd.sitemap) })

/-! ## `seo_audit_polars.py`: `save_insight_report._add_section` (lines 582-611)

```python
def _add_section(name, func, df, *args):
    try:
        if df is None or (hasattr(df, "is_empty") and df.is_empty()):
            insight = { "summary": f"No data was collected for {name}.", ... }
        else:
            insight = func(df, *args)
    except Exception as e:
        insight = { "summary": f"{name} insights could not be generated.", ... }
    ...
```

Every report dimension passes through this dispatcher (lines 614-627).
The per-dimension rule `func` is abstract here; its extra positional
arguments are part of the closure, and a raised exception is the
`Except.error` outcome. -/

structure Insight where
  summary : String
  meaning : String
  red_flags : List String
  details : String
deriving Repr, DecidableEq

def noDataInsight (name : String) : Insight :=
  { summary := s!"No data was collected for {name}."
    meaning := s!"{name} insights are not available in this run."
    red_flags := []
    details := "Check logs for crawl or parsing details. This does not always indicate an issue." }

def couldNotInsight (name : String) : Insight :=
  { summary := s!"{name} insights could not be generated."
    meaning := s!"{name} section did not produce data."
    red_flags := []
    details := "Check logs for details. This does not always indicate an issue." }

def add_section (name : String) (func : PolarsDF → Except String Insight)
    (df : Option PolarsDF) : Insight :=
  match df with
  | none => noDataInsight name
  | some t =>
    if t.rows.isEmpty then noDataInsight name
    else
      match func t with
      | Except.ok i => i
      | Except.error _ => couldNotInsight name

/-! ## `seo_insights_polars.py`: `interpret_ngrams` red flags (lines 354-401)

The input frame has two columns (phrase, absolute frequency), renamed to
`ngram`/`count`; `ngram` is stripped and lowercased, `count` cast to
int with nulls as 0.  The three red-flag rules (lines 379-390):

```python
noisy = df.filter(pl.col("ngram").str.contains(r"[|&]"))
branded = df.filter(pl.col("ngram").str.contains("welzin", literal=False))
if not noisy.is_empty() and (noisy_sum / max(total_occurrences, 1)) > 0.1: ...
if not branded.is_empty() and (branded_sum / max(total_occurrences, 1)) > 0.3: ...
if any(term in ngram_list for term in ["policy", "terms", "conditions", "privacy"]): ...
```

The regex `[|&]` matches when a `'|'` or `'&'` character occurs in the
phrase, and the pattern `"welzin"` matches when `"welzin"` occurs as a
substring.  The float comparisons `x / max(t, 1) > 0.1` and `> 0.3` on
integer `x`, `t` are modelled exactly as `10 * x > max t 1` and
`10 * x > 3 * max t 1` (the denominator is positive).  Sorting by count
(line 372) permutes rows only and is dropped; the legal-terms check uses
exact membership in the processed phrase list. -/

def listInfixOf (pat : List Char) : List Char → Bool
  | [] => pat.isEmpty
  | c :: tl => pat.isPrefixOf (c :: tl) || listInfixOf pat tl

def containsSub (s pat : String) : Bool :=
  listInfixOf pat.data s.data

def ngramsProcessed (rows : List (String × Int)) : List (String × Int) :=
  rows.map (fun p => (pyLower (pyStrip p.1), p.2))

def ngramsTotal (rows : List (String × Int)) : Int :=
  ((ngramsProcessed rows).map Prod.snd).sum

def noisyRows (rows : List (String × Int)) : List (String × Int) :=
  (ngramsProcessed rows).filter
    (fun p => p.1.data.any (fun c => c == '|' || c == '&'))

def brandedRows (rows : List (String × Int)) : List (String × Int) :=
  (ngramsProcessed rows).filter (fun p => containsSub p.1 "welzin")

def symbolsFlag : String :=
  "Symbols like | or & dominate top n-grams — content extraction may include layout artifacts."

def brandFlag : String :=
  "Brand name dominates content — topical variety is limited."

def legalFlag : String :=
  "Legal boilerplate (privacy/terms/policy) appears frequently — may overshadow topical content."

def interpret_ngrams_red_flags (rows : List (String × Int)) : List String :=
  let total := ngramsTotal rows
  let noisy := noisyRows rows
  let branded := brandedRows rows
  let ngram_list := (ngramsProcessed rows).map Prod.fst
  (if !noisy.isEmpty && decide (10 * (noisy.map Prod.snd).sum > max total 1)
   then [symbolsFlag] else [])
  ++ (if !branded.isEmpty && decide (10 * (branded.map Prod.snd).sum > 3 * max total 1)
      then [brandFlag] else [])
  ++ (if ["policy", "terms", "conditions", "privacy"].any
          (fun term => ngram_list.contains term)
      then [legalFlag] else [])

/-! ## `seo_audit_polars.py`: `report_internal_links` graph build (lines 411-442)

After filtering, the edge frame `edges` has one row per internal link
occurrence, with columns source/target/text/nofollow.  The graph is
`nx.from_pandas_edgelist(..., create_using=nx.DiGraph())`: a *simple*
directed graph, so duplicate `(source, target)` rows collapse into one
edge.  Its node set is every URL occurring as a source or a target; the
out-degree of a node is the number of distinct edges leaving it.  The
node table also carries `nx.pagerank` scores, computed by the external
library, and is sorted by them — a permutation that the degree-sum
claims are insensitive to, so the score column and the sort are omitted
from the node-row model. -/

structure LinkEdge where
  source : String
  target : String
  text : Option String
  nofollow : Option Bool
deriving Repr, DecidableEq

/-- The distinct `(source, target)` pairs: the edge set of the
`networkx.DiGraph`. -/
def edgePairs (edges : List LinkEdge) : List (String × String) :=
  (edges.map (fun e => (e.source, e.target))).dedup

/-- The node set of the graph: every endpoint of some edge row. -/
def graphNodes (edges : List LinkEdge) : List String :=
  (edges.map LinkEdge.source ++ edges.map LinkEdge.target).dedup

def out_degree (edges : List LinkEdge) (n : String) : Nat :=
  ((edgePairs edges).filter (fun p => p.1 == n)).length

def in_degree (edges : List LinkEdge) (n : String) : Nat :=
  ((edgePairs edges).filter (fun p => p.2 == n)).length

structure NodeRow where
  url : String
  in_degree : Nat
  out_degree : Nat
deriving Repr, DecidableEq

def nodesTable (edges : List LinkEdge) : List NodeRow :=
  (graphNodes edges).map (fun n => ⟨n, in_degree edges n, out_degree edges n⟩)

def sumOutDegrees (edges : List LinkEdge) : Nat :=
  ((nodesTable edges).map NodeRow.out_degree).sum

/-! ## `seo_audit_polars.py`: `report_internal_links.resolve_url` (lines 385-393)

```python
def resolve_url(u):
    if u is None:
        return u
    seen = set()
    cur = u
    while cur in redirect_map and cur not in seen:
        seen.add(cur)
        cur = redirect_map[cur]
    return cur
```

`redirect_map` is a finite `dict`, modelled as an association list with
`lookupRedirect` for `redirect_map[cur]` (a Python dict has unique keys;
the theorems below hold for arbitrary association lists, which include
that case).  The `while` loop is embedded with an explicit fuel
parameter — `none` means the fuel ran out before the loop exited — and
the termination theorem shows that fuel `map.length + 1` always
suffices, because each iteration inserts into `seen` a key of the map
that was not there before. -/

def lookupRedirect (map : List (String × String)) (cur : String) : Option String :=
  (map.find? (fun p => p.1 == cur)).map Prod.snd

def resolveAux (map : List (String × String)) (seen : List String)
    (cur : String) : Nat → Option (String × List String)
  | 0 => none
  | fuel + 1 =>
    match lookupRedirect map cur with
    | none => some (cur, seen)
    | some nxt =>
      if seen.contains cur then some (cur, seen)
      else resolveAux map (cur :: seen) nxt fuel

/-- `resolve_url` itself: run the loop from an empty `seen` set with
enough fuel. -/
def resolve_url (map : List (String × String)) (u : String) :
    Option (String × List String) :=
  resolveAux map [] u (map.length + 1)

/-! ## Theorems -/

/-- C1: the overall numeric score is `max(0, 100 - 15 * n)` for `n` the
number of issues counted for the run, hence always lies in `[0, 100]`,
and a run with zero issues scores exactly 100
(`api/index.py`, lines 249-250 and 447-453). -/
theorem audit_score_formula_and_range (issues : List String) :
    audit_score issues = max 0 (100 - 15 * (issues.length : Int)) ∧
    0 ≤ audit_score issues ∧ audit_score issues ≤ 100 ∧
    audit_score [] = 100 := by
  have hnn : (0 : Int) ≤ (issues.length : Int) * 15 := by positivity
  refine ⟨by rw [audit_score, Int.mul_comm], le_max_left _ _, ?_, by decide⟩
  exact max_le (by norm_num) (by omega)

/-- C2: whenever the wrapped reporter call raises or returns `None` or an
empty frame, `safe_run` with an expected column list returns the empty
frame carrying exactly those columns (`seo_audit_polars.py`,
lines 469-486). -/
theorem safe_run_failed_gives_empty_schema
    (res : Except String (Option PolarsDF)) (cols : List String)
    (h : failedRun res = true) :
    safe_run res (some cols) = ⟨cols, []⟩ := by
  have hfb : (if cols.isEmpty then (⟨[], []⟩ : PolarsDF) else ⟨cols, []⟩) = ⟨cols, []⟩ := by
    cases hc : cols.isEmpty
    · simp
    · simp_all [List.isEmpty_iff]
  cases res with
  | error e => simp [safe_run, hfb]
  | ok o =>
    cases o with
    | none => simp [safe_run, hfb]
    | some df =>
      have hdf : df.rows.isEmpty = true := h
      simp [safe_run, hdf, hfb]

/-- Witness for C2 at a concrete failed call. -/
theorem safe_run_failed_gives_empty_schema_witness :
    failedRun (Except.error "boom") = true ∧
    safe_run (Except.error "boom") (some ["url", "title", "meta_desc"]) =
      ⟨["url", "title", "meta_desc"], []⟩ :=
  ⟨by decide, safe_run_failed_gives_empty_schema _ _ (by decide)⟩

/-- C4 counterexample: with an absent sitemap and a non-empty crawl set
(one crawled URL), the reconciliation output has zero rows — it *is*
treated as an empty comparison, contradicting the claim that it is
non-empty with one row per crawled URL. -/
theorem sitemap_vs_crawl_empty_sitemap_cex :
    (report_sitemap_vs_crawl none ["https://a.com/page"]).length = 0 ∧
    (["https://a.com/page"] : List String).length = 1 := by
  decide

/-- C4 amended: when the sitemap record set is absent or empty, the
reconciliation output is the empty table (schema only, zero rows),
regardless of the crawl set (`seo_audit_polars.py`, lines 263-269). -/
theorem sitemap_vs_crawl_empty_sitemap (crawl : List String) :
    report_sitemap_vs_crawl none crawl = [] ∧
    report_sitemap_vs_crawl (some []) crawl = [] :=
  ⟨rfl, rfl⟩

/-- C6 counterexample: `"https://a.com/"` consists of just a scheme and
host, yet its trailing slash *is* stripped by `normalize_url`
(the guard only spares strings of at most `len("http://a") = 8`
characters). -/
theorem normalize_url_scheme_host_cex :
    normalize_url "https://a.com/" = "https://a.com" ∧
    "https://a.com" ≠ "https://a.com/" := by
  decide

/-- C6 amended: `normalize_url` trims surrounding whitespace, lowercases,
and strips all trailing slashes exactly when the trimmed lowercased
string ends in `'/'` and is longer than 8 characters (the length of
`"http://a"`); strings of at most 8 characters — not scheme-plus-host
URLs in general — keep their trailing slash.  Two distinct URLs that are
already trimmed, lowercase and without a trailing slash (for example
two URLs differing only by query string in that form) stay distinct
(`seo_audit_polars.py`, lines 181-187). -/
theorem normalize_url_characterization (u v : String) :
    (endsWithSlash (pyLower (pyStrip u)) = false →
      normalize_url u = pyLower (pyStrip u)) ∧
    ((pyLower (pyStrip u)).length ≤ 8 →
      normalize_url u = pyLower (pyStrip u)) ∧
    (endsWithSlash (pyLower (pyStrip u)) = true →
      8 < (pyLower (pyStrip u)).length →
      normalize_url u = rstripSlashes (pyLower (pyStrip u))) ∧
    (pyStrip u = u → pyLower u = u → endsWithSlash u = false →
      pyStrip v = v → pyLower v = v → endsWithSlash v = false →
      u ≠ v → normalize_url u ≠ normalize_url v) := by
  have hlen : ("http://a" : String).length = 8 := by decide
  refine ⟨?_, ?_, ?_, ?_⟩
  · intro h
    simp [normalize_url, h]
  · intro h
    simp only [normalize_url, hlen]
    have : decide ((pyLower (pyStrip u)).length > 8) = false := by
      simpa using Nat.not_lt.mpr h
    simp [this]
  · intro h1 h2
    simp only [normalize_url, hlen]
    simp [h1, h2]
  · intro hsu hlu heu hsv hlv hev hne
    have hu : normalize_url u = u := by
      simp [normalize_url, hsu, hlu, heu]
    have hv : normalize_url v = v := by
      simp [normalize_url, hsv, hlv, hev]
    rw [hu, hv]
    exact hne

/-- Witness for C6 amended: two URLs that differ only in their query
string remain distinct under `normalize_url`. -/
theorem normalize_url_characterization_witness :
    pyStrip "http://a.com?x=1" = "http://a.com?x=1" ∧
    pyLower "http://a.com?x=1" = "http://a.com?x=1" ∧
    endsWithSlash "http://a.com?x=1" = false ∧
    pyStrip "http://a.com?x=2" = "http://a.com?x=2" ∧
    pyLower "http://a.com?x=2" = "http://a.com?x=2" ∧
    endsWithSlash "http://a.com?x=2" = false ∧
    "http://a.com?x=1" ≠ "http://a.com?x=2" ∧
    normalize_url "http://a.com?x=1" ≠ normalize_url "http://a.com?x=2" :=
  ⟨by decide, by decide, by decide, by decide, by decide, by decide, by decide,
    (normalize_url_characterization "http://a.com?x=1" "http://a.com?x=2").2.2.2
      (by decide) (by decide) (by decide) (by decide) (by decide) (by decide)
      (by decide)⟩

/-- C7 counterexample: a page whose canonical equals its URL up to
normalization (here up to the trailing slash) is *not* marked
self-referencing — `report_canonicals` compares the raw strings, not the
normalized forms. -/
theorem report_canonicals_normalized_cex :
    (report_canonicals [⟨"https://a.com/page", some "https://a.com/page/"⟩]).map
        (fun r => r.self_referencing) = [false] ∧
    normalize_url "https://a.com/page/" = normalize_url "https://a.com/page" := by
  decide

/-- C7 amended: `report_canonicals` sets `canonical_missing` exactly when
the canonical field is null, and `self_referencing` exactly when the raw
canonical string equals the raw page URL (a null canonical comparing as
false); no normalization is applied to either side
(`seo_audit_polars.py`, lines 228-239). -/
theorem report_canonicals_fields (crawl : List CanonicalRec) (row : CanonicalRow)
    (h : row ∈ report_canonicals crawl) :
    row.canonical_missing = row.canonical.isNone ∧
    row.self_referencing = (row.canonical == some row.url) := by
  rcases List.mem_map.mp h with ⟨r, _, rfl⟩
  cases r.canonical <;> simp [report_canonicals]

/-- Witness for C7 amended at a concrete record. -/
theorem report_canonicals_fields_witness :
    (⟨"https://a.com", some "https://a.com", false, true⟩ : CanonicalRow) ∈
      report_canonicals [(⟨"https://a.com", some "https://a.com"⟩ : CanonicalRec)] ∧
    ((⟨"https://a.com", some "https://a.com", false, true⟩ : CanonicalRow).canonical_missing =
        (some "https://a.com" : Option String).isNone ∧
      (⟨"https://a.com", some "https://a.com", false, true⟩ : CanonicalRow).self_referencing =
        ((some "https://a.com" : Option String) == some "https://a.com")) := by
  refine ⟨?_, report_canonicals_fields [⟨"https://a.com", some "https://a.com"⟩] _ ?_⟩ <;> decide

/-- C3: every row of the sitemap-vs-crawl reconciliation satisfies
`¬(orphaned ∧ uncatalogued)` and `in_crawl ∨ in_sitemap` — no row is
produced for a URL in neither set (`seo_audit_polars.py`,
lines 283-305; the empty-sitemap early return produces no rows at all,
so the invariant holds vacuously there). -/
theorem sitemap_vs_crawl_row_invariant (sm : Option (List SitemapRec))
    (crawl : List String) (row : CompRow)
    (h : row ∈ report_sitemap_vs_crawl sm crawl) :
    (row.orphaned && row.uncatalogued) = false ∧
    (row.in_crawl || row.in_sitemap) = true := by
  unfold report_sitemap_vs_crawl at h
  cases sm with
  | none => simp at h
  | some sm =>
    by_cases hsm : sm.isEmpty = true
    · simp [hsm] at h
    · simp only [hsm, Bool.false_eq_true, if_false, if_neg] at h
      rcases List.mem_map.mp h with ⟨u, hu, rfl⟩
      constructor
      · cases hc : (crawl.map normalize_url).contains u <;>
          cases hs : ((sm.map fun r => (normalize_url r.loc, r)).map Prod.fst).contains u <;>
          simp [hc, hs]
      · have hu' := List.mem_dedup.mp hu
        rcases List.mem_append.mp hu' with hmem | hmem
        · have hc : (crawl.map normalize_url).contains u = true :=
            List.elem_eq_true_of_mem hmem
          show ((crawl.map normalize_url).contains u || _) = true
          rw [hc, Bool.true_or]
        · have hc : ((sm.map fun r => (normalize_url r.loc, r)).map Prod.fst).contains u = true :=
            List.elem_eq_true_of_mem hmem
          show (_ || ((sm.map fun r => (normalize_url r.loc, r)).map Prod.fst).contains u) = true
          rw [hc, Bool.or_true]

/-- Witness for C3 at a concrete reconciliation run. -/
theorem sitemap_vs_crawl_row_invariant_witness :
    (⟨"https://a.com/c", true, false, false, true, none, none⟩ : CompRow) ∈
      report_sitemap_vs_crawl
        (some [(⟨"https://a.com/b", some "2020", some "sm.xml"⟩ : SitemapRec)])
        ["https://a.com/c"] ∧
    ((((⟨"https://a.com/c", true, false, false, true, none, none⟩ : CompRow).orphaned &&
        (⟨"https://a.com/c", true, false, false, true, none, none⟩ : CompRow).uncatalogued) = false) ∧
      (((⟨"https://a.com/c", true, false, false, true, none, none⟩ : CompRow).in_crawl ||
        (⟨"https://a.com/c", true, false, false, true, none, none⟩ : CompRow).in_sitemap) = true)) := by
  refine ⟨?_, sitemap_vs_crawl_row_invariant
    (some [⟨"https://a.com/b", some "2020", some "sm.xml"⟩]) ["https://a.com/c"] _ ?_⟩ <;> decide

/-- C5: for every report dimension, when the frame handed to the insight
dispatcher is absent (`None`) or has zero rows, the dispatcher returns
the neutral "no data collected" insight, whose red-flag list is empty,
without invoking the dimension rule — so this path cannot raise
(`seo_audit_polars.py`, lines 582-611; every dimension is dispatched
through it, lines 614-627). -/
theorem add_section_empty_input (name : String)
    (func : PolarsDF → Except String Insight) (df : Option PolarsDF)
    (h : (df.all fun t => t.rows.isEmpty) = true) :
    add_section name func df = noDataInsight name ∧
    (add_section name func df).red_flags = [] := by
  cases df with
  | none => exact ⟨rfl, rfl⟩
  | some t =>
    have ht : t.rows.isEmpty = true := by simpa [Option.all] using h
    refine ⟨?_, ?_⟩ <;> simp [add_section, ht, noDataInsight]

/-- Witness for C5: the dispatcher on an absent frame, with a rule that
would raise if it were ever called. -/
theorem add_section_empty_input_witness :
    ((none : Option PolarsDF).all fun t => t.rows.isEmpty) = true ∧
    (add_section "Meta" (fun _ => Except.error "boom") none = noDataInsight "Meta" ∧
      (add_section "Meta" (fun _ => Except.error "boom") none).red_flags = []) :=
  ⟨rfl, add_section_empty_input "Meta" (fun _ => Except.error "boom") none rfl⟩

/-- C8 counterexample: an n-gram table whose dominant token `"brandx"`
accounts for 40 of 100 total occurrences (40% > 30%), yet the insight's
red-flag list does not contain the "brand name dominates" flag — the
rule only looks for phrases containing the literal substring
`"welzin"`. -/
theorem ngrams_brand_flag_cex :
    ngramsTotal [("brandx", 40), ("gadgets widgets", 60)] = 100 ∧
    ((ngramsProcessed [("brandx", 40), ("gadgets widgets", 60)]).filter
        (fun p => p.1 == "brandx")).map Prod.snd = [40] ∧
    brandFlag ∉ interpret_ngrams_red_flags [("brandx", 40), ("gadgets widgets", 60)] := by
  refine ⟨by decide, by decide, ?_⟩
  have h : interpret_ngrams_red_flags [("brandx", 40), ("gadgets widgets", 60)] = [] := by
    decide
  rw [h]
  simp

/-- C8 amended: the "brand name dominates" red flag is emitted exactly
when the rows whose stripped lowercased phrase contains the substring
`"welzin"` are non-empty and their occurrence count exceeds 30% of all
occurrences; any other dominant token is ignored
(`seo_insights_polars.py`, lines 379-390). -/
theorem ngrams_brand_flag_iff (rows : List (String × Int)) :
    brandFlag ∈ interpret_ngrams_red_flags rows ↔
      (brandedRows rows ≠ [] ∧
        10 * ((brandedRows rows).map Prod.snd).sum > 3 * max (ngramsTotal rows) 1) := by
  have hns : brandFlag ≠ symbolsFlag := by decide
  have hnl : brandFlag ≠ legalFlag := by decide
  have hmemif : ∀ (x f : String) (b : Bool),
      x ∈ (if b = true then [f] else ([] : List String)) ↔ (b = true ∧ x = f) := by
    intro x f b
    cases b <;> simp
  have hexp : interpret_ngrams_red_flags rows =
      (if (!(noisyRows rows).isEmpty &&
            decide (10 * ((noisyRows rows).map Prod.snd).sum > max (ngramsTotal rows) 1)) = true
        then [symbolsFlag] else []) ++
      (if (!(brandedRows rows).isEmpty &&
            decide (10 * ((brandedRows rows).map Prod.snd).sum > 3 * max (ngramsTotal rows) 1)) = true
        then [brandFlag] else []) ++
      (if (["policy", "terms", "conditions", "privacy"].any
            (fun term => ((ngramsProcessed rows).map Prod.fst).contains term)) = true
        then [legalFlag] else []) := by
    rw [interpret_ngrams_red_flags, List.append_assoc]
  rw [hexp]
  constructor
  · intro h
    rcases List.mem_append.mp h with h' | h'
    · rcases List.mem_append.mp h' with h'' | h''
      · exact absurd ((hmemif _ _ _).mp h'').2 hns
      · obtain ⟨hb, _⟩ := (hmemif _ _ _).mp h''
        obtain ⟨hb1, hb2⟩ := Bool.and_eq_true_iff.mp hb
        refine ⟨?_, of_decide_eq_true hb2⟩
        intro hnil
        rw [hnil] at hb1
        simp at hb1
    · exact absurd ((hmemif _ _ _).mp h').2 hnl
  · rintro ⟨hne, hgt⟩
    have hb : (!(brandedRows rows).isEmpty &&
        decide (10 * ((brandedRows rows).map Prod.snd).sum > 3 * max (ngramsTotal rows) 1)) = true := by
      refine Bool.and_eq_true_iff.mpr ⟨?_, decide_eq_true hgt⟩
      cases hbe : (brandedRows rows).isEmpty
      · rfl
      · exact absurd (List.isEmpty_iff.mp hbe) hne
    refine List.mem_append.mpr (Or.inl (List.mem_append.mpr (Or.inr ?_)))
    exact (hmemif _ _ _).mpr ⟨hb, rfl⟩

/-! Counting lemmas for the out-degree sum: summing, over a
duplicate-free node list that covers every edge source, the number of
edges leaving each node partitions the edge list. -/

lemma sum_map_add_nat {α : Type} (l : List α) (f g : α → Nat) :
    (l.map (fun a => f a + g a)).sum = (l.map f).sum + (l.map g).sum := by
  induction l with
  | nil => rfl
  | cons a tl ih => simp [ih]; omega

lemma sum_indicator_of_not_mem (a : String) (nodes : List String)
    (h : a ∉ nodes) :
    (nodes.map (fun n => if a = n then 1 else 0)).sum = 0 := by
  induction nodes with
  | nil => rfl
  | cons n tl ih =>
    have hne : a ≠ n := fun he => h (he ▸ List.mem_cons_self n tl)
    have htl : a ∉ tl := fun ht => h (List.mem_cons_of_mem n ht)
    simp [hne, ih htl]

lemma sum_indicator_of_nodup (a : String) (nodes : List String)
    (hnd : nodes.Nodup) (hmem : a ∈ nodes) :
    (nodes.map (fun n => if a = n then 1 else 0)).sum = 1 := by
  induction nodes with
  | nil => cases hmem
  | cons n tl ih =>
    rcases List.mem_cons.mp hmem with rfl | hin
    · have hnotin : a ∉ tl := (List.nodup_cons.mp hnd).1
      simp [sum_indicator_of_not_mem a tl hnotin]
    · have hne : a ≠ n := by
        have hn : n ∉ tl := (List.nodup_cons.mp hnd).1
        exact fun he => hn (he ▸ hin)
      simp [hne, ih (List.nodup_cons.mp hnd).2 hin]

lemma sum_filter_lengths (nodes : List String) (pairs : List (String × String))
    (hnd : nodes.Nodup) (hall : ∀ p ∈ pairs, p.1 ∈ nodes) :
    (nodes.map (fun n => (pairs.filter (fun p => p.1 == n)).length)).sum =
      pairs.length := by
  induction pairs with
  | nil => simp
  | cons p rest ih =>
    have hmem : p.1 ∈ nodes := hall p (List.mem_cons_self p rest)
    have hrest : ∀ q ∈ rest, q.1 ∈ nodes :=
      fun q hq => hall q (List.mem_cons_of_mem p hq)
    have hlen : ∀ n : String,
        ((p :: rest).filter (fun q => q.1 == n)).length =
          (if p.1 = n then 1 else 0) + (rest.filter (fun q => q.1 == n)).length := by
      intro n
      by_cases hpn : p.1 = n
      · have hb : (p.1 == n) = true := by simpa using hpn
        simp [List.filter_cons, hb, hpn, Nat.add_comm]
      · have hb : (p.1 == n) = false := by simpa using hpn
        simp [List.filter_cons, hb, hpn]
    calc (nodes.map (fun n => ((p :: rest).filter (fun q => q.1 == n)).length)).sum
        = (nodes.map (fun n =>
            (if p.1 = n then 1 else 0) + (rest.filter (fun q => q.1 == n)).length)).sum := by
          congr 1
          exact List.map_congr_left (fun n _ => hlen n)
      _ = (nodes.map (fun n => if p.1 = n then 1 else 0)).sum +
            (nodes.map (fun n => (rest.filter (fun q => q.1 == n)).length)).sum :=
          sum_map_add_nat nodes _ _
      _ = 1 + rest.length := by
          rw [sum_indicator_of_nodup p.1 nodes hnd hmem, ih hrest]
      _ = (p :: rest).length := by simp [Nat.add_comm]

/-- C9 counterexample: two edge rows with the same source and target
(two links with different anchor text) collapse into a single graph
edge, so the out-degree sum over the node table is 1 while the edge
table has 2 rows. -/
theorem link_graph_outdegree_sum_cex :
    sumOutDegrees
      [⟨"https://a.com/", "https://a.com/b", some "home", none⟩,
        ⟨"https://a.com/", "https://a.com/b", some "banner", none⟩] = 1 ∧
    ([⟨"https://a.com/", "https://a.com/b", some "home", none⟩,
        ⟨"https://a.com/", "https://a.com/b", some "banner", none⟩] : List LinkEdge).length = 2 := by
  decide

/-- C9 amended: for every link graph built by `report_internal_links`,
the sum of out-degree over all nodes equals the number of *distinct*
`(source, target)` pairs among the edge rows — equal to the edge-table
row count exactly when no duplicate source→target rows occur, since the
`networkx.DiGraph` deduplicates parallel edges
(`seo_audit_polars.py`, lines 411-442). -/
theorem link_graph_outdegree_sum (edges : List LinkEdge) :
    sumOutDegrees edges = (edgePairs edges).length := by
  unfold sumOutDegrees nodesTable
  rw [List.map_map]
  have hmapeq : (NodeRow.out_degree ∘ fun n =>
      (⟨n, in_degree edges n, out_degree edges n⟩ : NodeRow)) =
      fun n => out_degree edges n := rfl
  rw [hmapeq]
  unfold out_degree
  apply sum_filter_lengths
  · exact List.nodup_dedup _
  · intro p hp
    have hp' : p ∈ edges.map (fun e => (e.source, e.target)) := by
      have : edgePairs edges = (edges.map (fun e => (e.source, e.target))).dedup := rfl
      exact List.mem_dedup.mp (this ▸ hp)
    rcases List.mem_map.mp hp' with ⟨e, he, rfl⟩
    unfold graphNodes
    exact List.mem_dedup.mpr
      (List.mem_append.mpr (Or.inl (List.mem_map_of_mem LinkEdge.source he)))

/-! Lemmas for the redirect-resolution loop: each iteration inserts into
`seen` a key of the redirect map that was not there before, so the
number of map keys outside `seen` strictly decreases and bounds the
iteration count. -/

lemma length_filter_le_of_imp {α : Type} (p q : α → Bool) (l : List α)
    (h : ∀ a, p a = true → q a = true) :
    (l.filter p).length ≤ (l.filter q).length := by
  induction l with
  | nil => exact Nat.le_refl 0
  | cons a tl ih =>
    cases hp : p a
    · cases hq : q a <;> simp [List.filter_cons, hp, hq] <;> omega
    · have hq : q a = true := h a hp
      simp [List.filter_cons, hp, hq]
      omega

lemma filter_not_contains_cons_lt (l : List String) (cur : String)
    (seen : List String) (hcur : cur ∈ l) (hseen : seen.contains cur = false) :
    (l.filter (fun k => !((cur :: seen).contains k))).length <
      (l.filter (fun k => !(seen.contains k))).length := by
  induction l with
  | nil => cases hcur
  | cons a tl ih =>
    by_cases hac : a = cur
    · subst hac
      have hnew : (!((a :: seen).contains a)) = false := by
        have : (a :: seen).contains a = true := by
          rw [List.contains_cons]
          simp
        rw [this]
        rfl
      have hold : (!(seen.contains a)) = true := by
        rw [hseen]
        rfl
      have hle : (tl.filter (fun k => !((a :: seen).contains k))).length ≤
          (tl.filter (fun k => !(seen.contains k))).length := by
        apply length_filter_le_of_imp
        intro k hk
        rw [Bool.not_eq_true'] at hk ⊢
        rw [List.contains_cons, Bool.or_eq_false_iff] at hk
        exact hk.2
      rw [List.filter_cons, List.filter_cons, hnew, hold]
      simp only [Bool.false_eq_true, if_false, if_true, List.length_cons]
      omega
    · have hcur' : cur ∈ tl := by
        rcases List.mem_cons.mp hcur with h | h
        · exact absurd h.symm hac
        · exact h
      have hbeq : (a == cur) = false := beq_eq_false_iff_ne.mpr hac
      have hsame : (!((cur :: seen).contains a)) = (!(seen.contains a)) := by
        rw [List.contains_cons, hbeq, Bool.false_or]
      rw [List.filter_cons, List.filter_cons, hsame]
      cases hv : (!(seen.contains a))
      · simp only [Bool.false_eq_true, if_false]
        exact ih hcur'
      · simp only [if_true, List.length_cons]
        have := ih hcur'
        omega

lemma resolveAux_isSome (map : List (String × String)) :
    ∀ (fuel : Nat) (seen : List String) (cur : String),
      ((map.map Prod.fst).filter (fun k => !(seen.contains k))).length < fuel →
      (resolveAux map seen cur fuel).isSome = true := by
  intro fuel
  induction fuel with
  | zero => intro seen cur h; omega
  | succ n ih =>
    intro seen cur h
    unfold resolveAux
    cases hl : lookupRedirect map cur with
    | none => rfl
    | some nxt =>
      cases hs : seen.contains cur with
      | true => simp [hs]
      | false =>
        simp only [hs, Bool.false_eq_true, if_false]
        apply ih
        have hkey : cur ∈ map.map Prod.fst := by
          unfold lookupRedirect at hl
          rcases Option.map_eq_some'.mp hl with ⟨p, hp, rfl⟩
          have hpe := List.find?_some hp
          have hpc : p.1 = cur := by simpa using hpe
          have hpm : p ∈ map := List.mem_of_find?_eq_some hp
          exact hpc ▸ List.mem_map_of_mem Prod.fst hpm
        have hdec := filter_not_contains_cons_lt (map.map Prod.fst) cur seen hkey hs
        omega

lemma resolveAux_exit (map : List (String × String)) :
    ∀ (fuel : Nat) (seen : List String) (cur r : String) (sf : List String),
      resolveAux map seen cur fuel = some (r, sf) →
      lookupRedirect map r = none ∨ sf.contains r = true := by
  intro fuel
  induction fuel with
  | zero => intro seen cur r sf h; cases h
  | succ n ih =>
    intro seen cur r sf h
    unfold resolveAux at h
    cases hl : lookupRedirect map cur with
    | none =>
      rw [hl] at h
      obtain ⟨rfl, rfl⟩ : cur = r ∧ seen = sf := by
        cases h
        exact ⟨rfl, rfl⟩
      exact Or.inl hl
    | some nxt =>
      rw [hl] at h
      cases hs : seen.contains cur with
      | true =>
        rw [hs] at h
        simp only [if_true] at h
        obtain ⟨rfl, rfl⟩ : cur = r ∧ seen = sf := by
          cases h
          exact ⟨rfl, rfl⟩
        exact Or.inr hs
      | false =>
        rw [hs] at h
        simp only [Bool.false_eq_true, if_false] at h
        exact ih (cur :: seen) nxt r sf h

/-- C10: for every redirect map and starting URL, the redirect-resolution
loop terminates — fuel `map.length + 1` always suffices — and the URL it
returns is either terminal (not a key of the redirect map) or one that
was already visited within this resolution, i.e. the loop stopped at the
first revisit (`seo_audit_polars.py`, lines 385-393). -/
theorem resolve_url_terminates (map : List (String × String)) (u : String) :
    ∃ r sf, resolve_url map u = some (r, sf) ∧
      (lookupRedirect map r = none ∨ sf.contains r = true) := by
  have hbound : ((map.map Prod.fst).filter (fun k => !(([] : List String).contains k))).length <
      map.length + 1 := by
    have h1 : ((map.map Prod.fst).filter (fun k => !(([] : List String).contains k))).length ≤
        (map.map Prod.fst).length := List.length_filter_le _ _
    have h2 : (map.map Prod.fst).length = map.length := List.length_map _ _
    omega
  have hsome := resolveAux_isSome map (map.length + 1) [] u hbound
  obtain ⟨⟨r, sf⟩, hr⟩ := Option.isSome_iff_exists.mp hsome
  exact ⟨r, sf, hr, resolveAux_exit map (map.length + 1) [] u r sf hr⟩

end SeoAudit
